import Mathlib

/-!
Verification of the radius-diameter-message codec (Go).

Shallow embedding conventions:
* Go byte slices are `List Nat` (each entry a byte value `< 256` in every
  Go-reachable state); a possibly-nil slice is `Option (List Nat)` with
  `none` for Go `nil` and `some []` for a non-nil empty slice.
* Go machine integers are `Nat` with explicit `% 2 ^ w` at every point where
  the Go code performs a narrowing conversion (`uint32(...)`, `byte(...)`).
* `time.Time` values are represented by their Unix seconds as `Int`
  (`value.Unix()`); `float32` / `float64` values by their IEEE bit pattern
  (`math.Float32bits` / `math.Float64bits`), since only the byte layout of
  these types is exercised by the code under audit.
* A Go function that can panic is modelled with result type `GoVal α`;
  `GoVal.crash` stands for a runtime panic (out-of-range slice index).
* Format A is the diameter package (the fully documented revision, whose
  `ToBytes` writes the vendor id field); Format B is the radius package
  (the revision with exported `Avp` and slice-backed `Avps`).
-/

/-- Result of running a Go function that may panic: either a returned value
or a runtime panic (modelled abstractly as `crash`). -/
inductive GoVal (α : Type) : Type
  | crash : GoVal α
  | ret : α → GoVal α
deriving DecidableEq, Repr

/-- Sequencing of fallible Go computations: a panic propagates. -/
def GoVal.andThen {α β : Type} : GoVal α → (α → GoVal β) → GoVal β
  | .crash, _ => .crash
  | .ret a, f => f a

/-- `binary.BigEndian.PutUint32`: the four big-endian bytes of the low 32
bits of `n`. -/
def be32 (n : Nat) : List Nat :=
  [n / 16777216 % 256, n / 65536 % 256, n / 256 % 256, n % 256]

/-- `writeUInt24`: `PutUint32` followed by dropping the first byte, i.e. the
three big-endian bytes of the low 24 bits of `n`. -/
def be24 (n : Nat) : List Nat :=
  [n / 65536 % 256, n / 256 % 256, n % 256]

/-- `binary.BigEndian.PutUint64`: the eight big-endian bytes of the low 64
bits of `n`. -/
def be64 (n : Nat) : List Nat :=
  [n / 72057594037927936 % 256, n / 281474976710656 % 256,
   n / 1099511627776 % 256, n / 4294967296 % 256,
   n / 16777216 % 256, n / 65536 % 256, n / 256 % 256, n % 256]

/-- `binary.BigEndian.Uint32` on the first four bytes of a list (byte
entries are masked to 8 bits, which is the identity on Go byte values). -/
def be32val (l : List Nat) : Nat :=
  l.getD 0 0 % 256 * 16777216 + l.getD 1 0 % 256 * 65536 +
    l.getD 2 0 % 256 * 256 + l.getD 3 0 % 256

/-- `binary.BigEndian.Uint64` on the first eight bytes of a list. -/
def be64val (l : List Nat) : Nat :=
  l.getD 0 0 % 256 * 72057594037927936 + l.getD 1 0 % 256 * 281474976710656 +
    l.getD 2 0 % 256 * 1099511627776 + l.getD 3 0 % 256 * 4294967296 +
    l.getD 4 0 % 256 * 16777216 + l.getD 5 0 % 256 * 65536 +
    l.getD 6 0 % 256 * 256 + l.getD 7 0 % 256

/-- `readUInt24`: a zero byte is prepended to a 3-byte slice and the result
read as a big-endian 32-bit value.  Every caller passes a 3-byte slice. -/
def readUInt24 (l : List Nat) : Nat :=
  if l.length = 3 then be32val (0 :: l) else be32val l

/-- Go slice expression `l[lo:hi]`; `none` models the bounds-check panic. -/
def goSlice (l : List Nat) (lo hi : Nat) : Option (List Nat) :=
  if lo ≤ hi ∧ hi ≤ l.length then some ((l.drop lo).take (hi - lo)) else none

/-- Go `copy(dst[off:], src)`: overwrite `dst` starting at `off` with as
many bytes of `src` as fit, leaving the rest of `dst` unchanged. -/
def copyAt (dst src : List Nat) (off : Nat) : List Nat :=
  dst.take off ++ src.take (dst.length - off) ++
    dst.drop (off + min src.length (dst.length - off))

/-- Padding to the next 4-byte boundary, as computed by the diameter
`NewAvp`: `len % 4`, replaced by `4 - len % 4` when non-zero. -/
def pad4 (n : Nat) : Nat :=
  if n % 4 = 0 then 0 else 4 - n % 4

/-! ## Format A: the diameter package -/

/-- `diameter.Avp`: code, flags, derived length, vendor id, payload
(`none` = Go nil slice), derived padding. -/
structure AvpA : Type where
  Code : Nat
  Flags : Nat
  length : Nat
  VendorId : Nat
  Data : Option (List Nat)
  padding : Nat
deriving DecidableEq, Repr

/-- `diameter.NewAvp`: length and padding are recomputed from the payload
size and vendor presence; both stored Go fields are `uint32`. -/
def NewAvpA (code flags vendorId : Nat) (d : Option (List Nat)) : AvpA :=
  let dlen := (d.getD []).length
  let padding := if dlen % 4 = 0 then 0 else 4 - dlen % 4
  let length := (dlen + 8 + (if vendorId ≠ 0 then 4 else 0)) % 2 ^ 32
  ⟨code, flags, length, vendorId, d, padding⟩

/-- `diameter.NewAvpString` (the string value as its UTF-8 bytes). -/
def NewAvpStringA (code flags vendorId : Nat) (s : List Nat) : AvpA :=
  NewAvpA code flags vendorId (some s)

/-- `diameter.NewAvpUint32`. -/
def NewAvpUint32A (code flags vendorId value : Nat) : AvpA :=
  NewAvpA code flags vendorId (some (be32 value))

/-- `diameter.NewAvpUint64`. -/
def NewAvpUint64A (code flags vendorId value : Nat) : AvpA :=
  NewAvpA code flags vendorId (some (be64 value))

/-- `diameter.NewAvpFloat32`, with the float given by its IEEE-754 bit
pattern (`math.Float32bits value`). -/
def NewAvpFloat32A (code flags vendorId bits : Nat) : AvpA :=
  NewAvpA code flags vendorId (some (be32 bits))

/-- `diameter.NewAvpFloat64`, with the float given by its IEEE-754 bit
pattern (`math.Float64bits value`). -/
def NewAvpFloat64A (code flags vendorId bits : Nat) : AvpA :=
  NewAvpA code flags vendorId (some (be64 bits))

/-- `diameter.NewAvpNetIP`, IPv4 branch (`value.To4()` non-nil, giving the
four address bytes): a 6-byte zero buffer with family tag 1 at index 1 and
the address copied in from index 2. -/
def NewAvpNetIP4A (code flags vendorId : Nat) (addr : List Nat) : AvpA :=
  NewAvpA code flags vendorId (some (copyAt [0, 1, 0, 0, 0, 0] addr 2))

/-- `diameter.NewAvpNetIP`, IPv6 branch (`value.To16()` giving sixteen
address bytes): an 18-byte zero buffer with family tag 2 at index 1. -/
def NewAvpNetIP6A (code flags vendorId : Nat) (addr : List Nat) : AvpA :=
  NewAvpA code flags vendorId
    (some (copyAt (0 :: 2 :: List.replicate 16 0) addr 2))

/-- `diameter.NewAvpTime`: the payload is `uint32(value.Unix())`, the raw
Unix seconds truncated to 32 bits — no NTP epoch offset is applied. -/
def NewAvpTimeA (code flags vendorId : Nat) (unix : Int) : AvpA :=
  NewAvpA code flags vendorId (some (be32 (unix % (2 ^ 32 : Int)).toNat))

/-- `diameter.Avp.ToBytes`: a zero buffer of `length + padding` bytes
(uint32 sum) receives the code, the flags byte, the 24-bit length, the
vendor id when non-zero, and the payload. -/
def AvpA.ToBytes (a : AvpA) : List Nat :=
  let b0 := List.replicate ((a.length + a.padding) % 2 ^ 32) 0
  let b1 := copyAt b0 (be32 a.Code) 0
  let b2 := copyAt b1 [a.Flags] 4
  let b3 := copyAt b2 (be24 a.length) 5
  if a.VendorId ≠ 0 then
    let b4 := copyAt b3 (be32 a.VendorId) 8
    copyAt b4 (a.Data.getD []) 12
  else
    copyAt b3 (a.Data.getD []) 8

/-- `diameter.Avps.ToBytes`: concatenation of the member encodings. -/
def avpsToBytesA : List AvpA → List Nat
  | [] => []
  | a :: rest => a.ToBytes ++ avpsToBytesA rest

/-- `diameter.NewAvpGroup`: payload is the encoded member list. -/
def NewAvpGroupA (code flags vendorId : Nat) (avps : List AvpA) : AvpA :=
  NewAvpA code flags vendorId (some (avpsToBytesA avps))

/-- `diameter.Avps.GetFirst`: first AVP matching code and vendor id, `none`
(Go nil pointer) when there is no match. -/
def GetFirstA : List AvpA → Nat → Nat → Option AvpA
  | [], _, _ => none
  | a :: rest, code, vendorId =>
    if a.Code = code ∧ a.VendorId = vendorId then some a
    else GetFirstA rest code vendorId

/-- `diameter.Avps.Get`: all AVPs matching code and vendor id, in order. -/
def GetA : List AvpA → Nat → Nat → List AvpA
  | [], _, _ => []
  | a :: rest, code, vendorId =>
    if a.Code = code ∧ a.VendorId = vendorId then
      a :: GetA rest code vendorId
    else GetA rest code vendorId

/-- `diameter.Avp.ToString` (pointer receiver): nil receiver or nil payload
gives a nil result; otherwise the payload bytes as a string. -/
def AvpAToString : Option AvpA → GoVal (Option (List Nat))
  | none => .ret none
  | some a =>
    match a.Data with
    | none => .ret none
    | some d => .ret (some d)

/-- `diameter.Avp.ToUint32`: `binary.BigEndian.Uint32` panics when the
payload holds fewer than four bytes. -/
def AvpAToUint32 : Option AvpA → GoVal (Option Nat)
  | none => .ret none
  | some a =>
    match a.Data with
    | none => .ret none
    | some d => if 4 ≤ d.length then .ret (some (be32val d)) else .crash

/-- `diameter.Avp.ToUint64`. -/
def AvpAToUint64 : Option AvpA → GoVal (Option Nat)
  | none => .ret none
  | some a =>
    match a.Data with
    | none => .ret none
    | some d => if 8 ≤ d.length then .ret (some (be64val d)) else .crash

/-- `diameter.Avp.ToFloat32`, returning the IEEE bit pattern read from the
payload (`math.Float32frombits` is a bijection on the bits). -/
def AvpAToFloat32 : Option AvpA → GoVal (Option Nat)
  | none => .ret none
  | some a =>
    match a.Data with
    | none => .ret none
    | some d => if 4 ≤ d.length then .ret (some (be32val d)) else .crash

/-- `diameter.Avp.ToFloat64`, returning the IEEE bit pattern. -/
def AvpAToFloat64 : Option AvpA → GoVal (Option Nat)
  | none => .ret none
  | some a =>
    match a.Data with
    | none => .ret none
    | some d => if 8 ≤ d.length then .ret (some (be64val d)) else .crash

/-- `diameter.Avp.ToNetIP`: reads the family tag at payload index 1, then
slices the 4- or 16-byte address; each access can panic. -/
def AvpAToNetIP : Option AvpA → GoVal (Option (List Nat))
  | none => .ret none
  | some a =>
    match a.Data with
    | none => .ret none
    | some d =>
      if 2 ≤ d.length then
        if d.getD 1 0 = 1 then
          match goSlice d 2 6 with
          | some ip => .ret (some ip)
          | none => .crash
        else
          match goSlice d 2 18 with
          | some ip => .ret (some ip)
          | none => .crash
      else .crash

/-- `diameter.Avp.ToTime`: the 32-bit big-endian payload minus the NTP
offset 2208988800, as Unix seconds. -/
def AvpAToTime : Option AvpA → GoVal (Option Int)
  | none => .ret none
  | some a =>
    match a.Data with
    | none => .ret none
    | some d =>
      if 4 ≤ d.length then .ret (some ((be32val d : Int) - 2208988800))
      else .crash

/-- `diameter.readAvps`, fuelled loop body.  Each Go slice access is modelled
by `goSlice` / `List.get?` so that an out-of-bounds access yields `none`
(a panic); the fuel bounds the iteration count — any terminating Go run
advances the offset by at least 8 bytes per iteration, so `bytes.length`
units of fuel are enough for every terminating run, and a run that would
not terminate (impossible here, since a successful iteration needs a
declared length of at least 8) also maps to `none`. -/
def readAvpsAuxA (bytes : List Nat) : Nat → Nat → Option (List AvpA)
  | offset, fuel =>
    if bytes.length ≤ offset then some []
    else
      match fuel with
      | 0 => none
      | fuel + 1 =>
        match goSlice bytes offset (offset + 4) with
        | none => none
        | some c4 =>
          match bytes.get? (offset + 4) with
          | none => none
          | some flags =>
            match goSlice bytes (offset + 5) (offset + 8) with
            | none => none
            | some lenBytes =>
              let code := be32val c4
              let vendorSpecific := flags &&& 128 ≠ 0
              let length := readUInt24 lenBytes
              if vendorSpecific then
                match goSlice bytes (offset + 8) (offset + 12),
                      goSlice bytes (offset + 12) (offset + length) with
                | some v4, some d =>
                  let avp := NewAvpA code flags (be32val v4) (some d)
                  match readAvpsAuxA bytes (offset + length + avp.padding) fuel with
                  | some rest => some (avp :: rest)
                  | none => none
                | _, _ => none
              else
                match goSlice bytes (offset + 8) (offset + length) with
                | some d =>
                  let avp := NewAvpA code flags 0 (some d)
                  match readAvpsAuxA bytes (offset + length + avp.padding) fuel with
                  | some rest => some (avp :: rest)
                  | none => none
                | none => none

/-- `diameter.readAvps`: walk the buffer from offset 0. -/
def readAvpsA (bytes : List Nat) : Option (List AvpA) :=
  readAvpsAuxA bytes 0 bytes.length

/-- `diameter.Avp.ToGroup`: nil receiver or nil payload give a fresh empty
collection; otherwise the payload is decoded as a nested collection. -/
def AvpAToGroup : Option AvpA → GoVal (List AvpA)
  | none => .ret []
  | some a =>
    match a.Data with
    | none => .ret []
    | some d =>
      match readAvpsA d with
      | some avps => .ret avps
      | none => .crash

/-- `diameter.Message` (header fields plus AVP collection; the two
correlation ids are 4-byte strings). -/
structure MessageA : Type where
  Version : Nat
  Flags : Nat
  CommandCode : Nat
  ApplicationId : Nat
  HopByHopId : List Nat
  EndToEndId : List Nat
  Avps : List AvpA
deriving DecidableEq, Repr

/-- `diameter.ReadMessage`: inputs shorter than the 20-byte header yield an
"invalid message length" error; otherwise the header fields are sliced at
fixed offsets and the remainder is handed to `readAvps`. -/
def ReadMessageA (bytes : List Nat) : GoVal (Except String MessageA) :=
  if bytes.length < 20 then .ret (.error "invalid message length")
  else
    match readAvpsA (bytes.drop 20) with
    | none => .crash
    | some avps =>
      .ret (.ok ⟨bytes.getD 0 0, bytes.getD 4 0,
        readUInt24 ((bytes.drop 5).take 3), be32val ((bytes.drop 8).take 4),
        (bytes.drop 12).take 4, (bytes.drop 16).take 4, avps⟩)

/-! ## Format B: the radius package -/

/-- `radius.Avp`: attribute type, derived one-byte length, vendor id,
payload.  (`Type` is a reserved word in Lean, so the field is `typ`.) -/
structure RAvp : Type where
  typ : Nat
  length : Nat
  VendorId : Nat
  Data : Option (List Nat)
deriving DecidableEq, Repr

/-- `radius.NewAvp`: the one-byte length field is `byte(len(data) + 2)`
without a vendor id and `byte(len(data) + 8)` with one — a `% 256`
truncation with no overflow check. -/
def RNewAvp (attributeType vendorId : Nat) (d : Option (List Nat)) : RAvp :=
  let dlen := (d.getD []).length
  if vendorId = 0 then ⟨attributeType, (dlen + 2) % 256, 0, d⟩
  else ⟨attributeType, (dlen + 8) % 256, vendorId, d⟩

/-- `radius.NewAvpString`. -/
def RNewAvpString (attributeType vendorId : Nat) (s : List Nat) : RAvp :=
  RNewAvp attributeType vendorId (some s)

/-- `radius.NewAvpUint32`. -/
def RNewAvpUint32 (attributeType vendorId value : Nat) : RAvp :=
  RNewAvp attributeType vendorId (some (be32 value))

/-- `radius.NewAvpNetIP` for an IPv4 address, given as the four bytes
produced by `value.To4()`. -/
def RNewAvpNetIP (attributeType vendorId : Nat) (addr : List Nat) : RAvp :=
  RNewAvp attributeType vendorId (some addr)

/-- `radius.NewAvpTime`: the payload is `uint32(value.Unix())`, raw Unix
seconds with no epoch offset. -/
def RNewAvpTime (attributeType vendorId : Nat) (unix : Int) : RAvp :=
  RNewAvp attributeType vendorId (some (be32 (unix % (2 ^ 32 : Int)).toNat))

/-- `radius.Avp.ToBytes`: `[type, length, payload]` without a vendor id;
with one, the outer type byte is fixed at 26 and a 6-byte vendor sub-header
(vendor id, inner type, inner length) precedes the payload. -/
def RAvp.toBytes (a : RAvp) : List Nat :=
  if a.VendorId = 0 then a.typ :: a.length :: a.Data.getD []
  else
    26 :: a.length ::
      (be32 a.VendorId ++
        a.typ :: ((a.Data.getD []).length + 2) % 256 :: a.Data.getD [])

/-- `radius.Avps.ToBytes`: concatenation of the member encodings. -/
def avpsToBytesB : List RAvp → List Nat
  | [] => []
  | a :: rest => a.toBytes ++ avpsToBytesB rest

/-- `radius.Avps.GetFirst`. -/
def GetFirstB : List RAvp → Nat → Nat → Option RAvp
  | [], _, _ => none
  | a :: rest, attributeType, vendorId =>
    if a.typ = attributeType ∧ a.VendorId = vendorId then some a
    else GetFirstB rest attributeType vendorId

/-- `radius.Avp.ToString` (pointer receiver). -/
def RAvpToString : Option RAvp → GoVal (Option (List Nat))
  | none => .ret none
  | some a =>
    match a.Data with
    | none => .ret none
    | some d => .ret (some d)

/-- `radius.Avp.ToUint32`. -/
def RAvpToUint32 : Option RAvp → GoVal (Option Nat)
  | none => .ret none
  | some a =>
    match a.Data with
    | none => .ret none
    | some d => if 4 ≤ d.length then .ret (some (be32val d)) else .crash

/-- `radius.Avp.ToNetIP`: the whole payload viewed as a `net.IP`. -/
def RAvpToNetIP : Option RAvp → GoVal (Option (List Nat))
  | none => .ret none
  | some a =>
    match a.Data with
    | none => .ret none
    | some d => .ret (some d)

/-- `radius.Avp.ToTime`: the 32-bit big-endian payload as raw Unix seconds
— no NTP offset. -/
def RAvpToTime : Option RAvp → GoVal (Option Int)
  | none => .ret none
  | some a =>
    match a.Data with
    | none => .ret none
    | some d =>
      if 4 ≤ d.length then .ret (some (be32val d : Int)) else .crash

/-- `radius.readAvps`, fuelled loop body (same conventions as
`readAvpsAuxA`; a terminating Go iteration advances the offset by the
declared length, which is at least 1 in every run that does not panic or
loop forever, so `bytes.length` units of fuel cover all terminating runs). -/
def readAvpsAuxB (bytes : List Nat) : Nat → Nat → Option (List RAvp)
  | offset, fuel =>
    if bytes.length ≤ offset then some []
    else
      match fuel with
      | 0 => none
      | fuel + 1 =>
        match bytes.get? offset, bytes.get? (offset + 1) with
        | some attributeType, some length =>
          if attributeType = 26 then
            match goSlice bytes (offset + 2) (offset + 6),
                  bytes.get? (offset + 6), bytes.get? (offset + 7) with
            | some v4, some innerType, some avpLength =>
              match goSlice bytes (offset + 8) (offset + 6 + avpLength) with
              | some d =>
                match readAvpsAuxB bytes (offset + length) fuel with
                | some rest =>
                  some (RNewAvp innerType (be32val v4) (some d) :: rest)
                | none => none
              | none => none
            | _, _, _ => none
          else
            match goSlice bytes (offset + 2) (offset + length) with
            | some d =>
              match readAvpsAuxB bytes (offset + length) fuel with
              | some rest => some (RNewAvp attributeType 0 (some d) :: rest)
              | none => none
            | none => none
        | _, _ => none

/-- `radius.readAvps`. -/
def readAvpsB (bytes : List Nat) : Option (List RAvp) :=
  readAvpsAuxB bytes 0 bytes.length

/-- `radius.Message`. -/
structure MessageB : Type where
  Code : Nat
  Identifier : Nat
  Authenticator : List Nat
  Avps : List RAvp
deriving DecidableEq, Repr

/-- `radius.ReadMessage`: inputs shorter than 20 bytes yield a nil pointer;
otherwise the header is sliced at fixed offsets and the remainder decoded
by `readAvps`. -/
def ReadMessageB (bytes : List Nat) : GoVal (Option MessageB) :=
  if bytes.length < 20 then .ret none
  else
    match readAvpsB (bytes.drop 20) with
    | none => .crash
    | some avps =>
      .ret (some ⟨bytes.getD 0 0, bytes.getD 1 0, (bytes.drop 4).take 16, avps⟩)

/-! ## Collections built via the typed constructors -/

/-- An abstract description of one call to a Format A typed AVP
constructor (floats appear as their IEEE bit patterns, times as Unix
seconds, IPv4/IPv6 addresses as their raw bytes). -/
inductive AvpSpecA : Type
  | str (code flags vendorId : Nat) (s : List Nat)
  | u32 (code flags vendorId value : Nat)
  | u64 (code flags vendorId value : Nat)
  | f32 (code flags vendorId bits : Nat)
  | f64 (code flags vendorId bits : Nat)
  | ip4 (code flags vendorId : Nat) (addr : List Nat)
  | ip6 (code flags vendorId : Nat) (addr : List Nat)
  | time (code flags vendorId : Nat) (unix : Int)
  | group (code flags vendorId : Nat) (subs : List AvpSpecA)

mutual

/-- Interpret one Format A constructor call. -/
def buildA : AvpSpecA → AvpA
  | .str c f v s => NewAvpStringA c f v s
  | .u32 c f v value => NewAvpUint32A c f v value
  | .u64 c f v value => NewAvpUint64A c f v value
  | .f32 c f v bits => NewAvpFloat32A c f v bits
  | .f64 c f v bits => NewAvpFloat64A c f v bits
  | .ip4 c f v addr => NewAvpNetIP4A c f v addr
  | .ip6 c f v addr => NewAvpNetIP6A c f v addr
  | .time c f v unix => NewAvpTimeA c f v unix
  | .group c f v subs => NewAvpGroupA c f v (buildAList subs)

/-- Interpret a list of Format A constructor calls. -/
def buildAList : List AvpSpecA → List AvpA
  | [] => []
  | s :: rest => buildA s :: buildAList rest

end

/-- An abstract description of one call to a Format B typed AVP
constructor (the radius package provides string, uint32, IPv4 and time
constructors). -/
inductive AvpSpecB : Type
  | str (attributeType vendorId : Nat) (s : List Nat)
  | u32 (attributeType vendorId value : Nat)
  | ip4 (attributeType vendorId : Nat) (addr : List Nat)
  | time (attributeType vendorId : Nat) (unix : Int)
deriving DecidableEq, Repr

/-- Interpret one Format B constructor call. -/
def buildB : AvpSpecB → RAvp
  | .str t v s => RNewAvpString t v s
  | .u32 t v value => RNewAvpUint32 t v value
  | .ip4 t v addr => RNewAvpNetIP t v addr
  | .time t v unix => RNewAvpTime t v unix

/-- Interpret a list of Format B constructor calls. -/
def buildBList : List AvpSpecB → List RAvp :=
  List.map buildB

/-- The (code, vendor id, payload) tuple of a Format A AVP. -/
def tupleA (a : AvpA) : Nat × Nat × Option (List Nat) :=
  (a.Code, a.VendorId, a.Data)

/-- The (type, vendor id, payload) tuple of a Format B AVP. -/
def tupleB (a : RAvp) : Nat × Nat × Option (List Nat) :=
  (a.typ, a.VendorId, a.Data)

/-- The Go-reachable, decode-faithful Format A AVPs: built by `NewAvp`,
fields within their Go integer types, a non-nil payload small enough for
the 24-bit length field, and the vendor-specific flag bit 0x80 set exactly
when the vendor id is non-zero (the encoder copies the caller's flags byte
verbatim and the decoder keys vendor detection on bit 0x80, so this
agreement is what makes an encoded vendor AVP decode as one). -/
def wfAvpA (a : AvpA) : Prop :=
  a = NewAvpA a.Code a.Flags a.VendorId a.Data ∧
    a.Code < 2 ^ 32 ∧ a.Flags < 256 ∧ a.VendorId < 2 ^ 32 ∧
    (a.VendorId ≠ 0 ↔ a.Flags &&& 128 ≠ 0) ∧
    a.Data ≠ none ∧ (a.Data.getD []).length + 13 ≤ 2 ^ 24

instance (a : AvpA) : Decidable (wfAvpA a) := by
  unfold wfAvpA; infer_instance

/-- The Go-reachable, decode-faithful Format B AVPs: built by `NewAvp`,
type a byte, vendor id a uint32, non-nil payload, and the payload small
enough that the one-byte length field is exact; a vendorless AVP must not
use attribute type 26, which the decoder reserves as the vendor marker. -/
def wfAvpB (a : RAvp) : Prop :=
  a = RNewAvp a.typ a.VendorId a.Data ∧
    a.typ < 256 ∧ a.VendorId < 2 ^ 32 ∧ a.Data ≠ none ∧
    (if a.VendorId = 0 then a.typ ≠ 26 ∧ (a.Data.getD []).length ≤ 253
     else (a.Data.getD []).length ≤ 247)

instance (a : RAvp) : Decidable (wfAvpB a) := by
  unfold wfAvpB; infer_instance

/-! ## Helper lemmas -/

theorem copyAt_fill (pre src : List Nat) (k off : Nat) (hoff : off = pre.length)
    (h : src.length ≤ k) :
    copyAt (pre ++ List.replicate k 0) src off
      = pre ++ src ++ List.replicate (k - src.length) 0 := by
  subst hoff
  unfold copyAt
  have hlen : (pre ++ List.replicate k 0).length = pre.length + k := by simp
  rw [hlen, List.take_left, Nat.add_sub_cancel_left,
    List.take_of_length_le h, Nat.min_eq_left h, ← List.drop_drop,
    List.drop_left, List.drop_replicate]

theorem goSlice_eval (l pre mid post : List Nat) (lo hi : Nat)
    (hl : l = pre ++ (mid ++ post)) (hlo : lo = pre.length)
    (hhi : hi = pre.length + mid.length) :
    goSlice l lo hi = some mid := by
  subst hl hlo hhi
  unfold goSlice
  rw [if_pos ⟨Nat.le_add_right _ _, by simp⟩, List.drop_left,
    Nat.add_sub_cancel_left, List.take_left]

theorem getq_eval (l pre : List Nat) (x : Nat) (post : List Nat) (n : Nat)
    (hl : l = pre ++ (x :: post)) (hn : n = pre.length) :
    l.get? n = some x := by
  subst hl hn
  rw [List.get?_append_right (Nat.le_refl _), Nat.sub_self]
  rfl

theorem be32_length (n : Nat) : (be32 n).length = 4 := rfl

theorem be24_length (n : Nat) : (be24 n).length = 3 := rfl

theorem be32val_be32 (n : Nat) (h : n < 2 ^ 32) : be32val (be32 n) = n := by
  simp [be32, be32val]
  omega

theorem readUInt24_be24 (n : Nat) (h : n < 2 ^ 24) : readUInt24 (be24 n) = n := by
  simp [readUInt24, be24, be32val]
  omega

theorem copyAt_fill2 (pre src : List Nat) (k off m : Nat)
    (hoff : off = pre.length) (h : src.length ≤ k) (hm : m = k - src.length) :
    copyAt (pre ++ List.replicate k 0) src off
      = pre ++ src ++ List.replicate m 0 := by
  rw [copyAt_fill pre src k off hoff h, hm]

theorem toBytesA_vendor (c f v : Nat) (d : List Nat) (hv : v ≠ 0)
    (hd : d.length + 16 ≤ 2 ^ 32) :
    (NewAvpA c f v (some d)).ToBytes
      = be32 c ++ [f] ++ be24 (d.length + 12) ++ be32 v ++ d ++
          List.replicate (pad4 d.length) 0 := by
  have hP : pad4 d.length ≤ 3 := by unfold pad4; split <;> omega
  have hL : (d.length + 8 + (if v ≠ 0 then 4 else 0)) % 2 ^ 32 = d.length + 12 := by
    rw [if_pos hv]
    exact Nat.mod_eq_of_lt (by omega)
  have hpad : (if d.length % 4 = 0 then 0 else 4 - d.length % 4) = pad4 d.length := rfl
  unfold NewAvpA AvpA.ToBytes
  simp only [Option.getD_some, hL, hpad]
  rw [if_pos hv]
  have hbuf : (d.length + 12 + pad4 d.length) % 2 ^ 32
      = d.length + 12 + pad4 d.length := Nat.mod_eq_of_lt (by omega)
  rw [hbuf]
  have e1 : copyAt (List.replicate (d.length + 12 + pad4 d.length) 0) (be32 c) 0
      = be32 c ++ List.replicate (d.length + 8 + pad4 d.length) 0 := by
    have h := copyAt_fill2 [] (be32 c) (d.length + 12 + pad4 d.length) 0
      (d.length + 8 + pad4 d.length) rfl (by simp [be32] <;> omega)
      (by simp [be32] <;> omega)
    simpa using h
  rw [e1]
  have e2 : copyAt (be32 c ++ List.replicate (d.length + 8 + pad4 d.length) 0) [f] 4
      = (be32 c ++ [f]) ++ List.replicate (d.length + 7 + pad4 d.length) 0 := by
    have h := copyAt_fill2 (be32 c) [f] (d.length + 8 + pad4 d.length) 4
      (d.length + 7 + pad4 d.length) (by simp [be32]) (by simp <;> omega) (by simp <;> omega)
    rw [h, List.append_assoc]
  rw [e2]
  have e3 : copyAt ((be32 c ++ [f]) ++ List.replicate (d.length + 7 + pad4 d.length) 0)
        (be24 (d.length + 12)) 5
      = ((be32 c ++ [f]) ++ be24 (d.length + 12)) ++
          List.replicate (d.length + 4 + pad4 d.length) 0 := by
    have h := copyAt_fill2 (be32 c ++ [f]) (be24 (d.length + 12))
      (d.length + 7 + pad4 d.length) 5 (d.length + 4 + pad4 d.length)
      (by simp [be32]) (by simp [be24] <;> omega) (by simp [be24] <;> omega)
    rw [h, List.append_assoc]
  rw [e3]
  have e4 : copyAt (((be32 c ++ [f]) ++ be24 (d.length + 12)) ++
        List.replicate (d.length + 4 + pad4 d.length) 0) (be32 v) 8
      = (((be32 c ++ [f]) ++ be24 (d.length + 12)) ++ be32 v) ++
          List.replicate (d.length + pad4 d.length) 0 := by
    have h := copyAt_fill2 ((be32 c ++ [f]) ++ be24 (d.length + 12)) (be32 v)
      (d.length + 4 + pad4 d.length) 8 (d.length + pad4 d.length)
      (by simp [be32, be24]) (by simp [be32] <;> omega) (by simp [be32] <;> omega)
    rw [h, List.append_assoc]
  rw [e4]
  have e5 : copyAt ((((be32 c ++ [f]) ++ be24 (d.length + 12)) ++ be32 v) ++
        List.replicate (d.length + pad4 d.length) 0) d 12
      = ((((be32 c ++ [f]) ++ be24 (d.length + 12)) ++ be32 v) ++ d) ++
          List.replicate (pad4 d.length) 0 := by
    have h := copyAt_fill2 (((be32 c ++ [f]) ++ be24 (d.length + 12)) ++ be32 v) d
      (d.length + pad4 d.length) 12 (pad4 d.length)
      (by simp [be32, be24]) (by omega) (by omega)
    rw [h, List.append_assoc]
  rw [e5]
  try simp [List.append_assoc]

theorem toBytesA_novendor (c f : Nat) (d : List Nat)
    (hd : d.length + 12 ≤ 2 ^ 32) :
    (NewAvpA c f 0 (some d)).ToBytes
      = be32 c ++ [f] ++ be24 (d.length + 8) ++ d ++
          List.replicate (pad4 d.length) 0 := by
  have hP : pad4 d.length ≤ 3 := by unfold pad4; split <;> omega
  have hpad : (if d.length % 4 = 0 then 0 else 4 - d.length % 4) = pad4 d.length := rfl
  unfold NewAvpA AvpA.ToBytes
  simp only [Option.getD_some, hpad, ne_eq, not_true_eq_false, if_false]
  rw [show (d.length + 8 + 0) % 2 ^ 32 = d.length + 8 from by omega]
  have hbuf : (d.length + 8 + pad4 d.length) % 2 ^ 32
      = d.length + 8 + pad4 d.length := Nat.mod_eq_of_lt (by omega)
  rw [hbuf]
  have e1 : copyAt (List.replicate (d.length + 8 + pad4 d.length) 0) (be32 c) 0
      = be32 c ++ List.replicate (d.length + 4 + pad4 d.length) 0 := by
    have h := copyAt_fill2 [] (be32 c) (d.length + 8 + pad4 d.length) 0
      (d.length + 4 + pad4 d.length) rfl (by simp [be32] <;> omega)
      (by simp [be32] <;> omega)
    simpa using h
  rw [e1]
  have e2 : copyAt (be32 c ++ List.replicate (d.length + 4 + pad4 d.length) 0) [f] 4
      = (be32 c ++ [f]) ++ List.replicate (d.length + 3 + pad4 d.length) 0 := by
    have h := copyAt_fill2 (be32 c) [f] (d.length + 4 + pad4 d.length) 4
      (d.length + 3 + pad4 d.length) (by simp [be32]) (by simp <;> omega)
      (by simp <;> omega)
    rw [h, List.append_assoc]
  rw [e2]
  have e3 : copyAt ((be32 c ++ [f]) ++ List.replicate (d.length + 3 + pad4 d.length) 0)
        (be24 (d.length + 8)) 5
      = ((be32 c ++ [f]) ++ be24 (d.length + 8)) ++
          List.replicate (d.length + pad4 d.length) 0 := by
    have h := copyAt_fill2 (be32 c ++ [f]) (be24 (d.length + 8))
      (d.length + 3 + pad4 d.length) 5 (d.length + pad4 d.length)
      (by simp [be32]) (by simp [be24] <;> omega) (by simp [be24] <;> omega)
    rw [h, List.append_assoc]
  rw [e3]
  have e4 : copyAt (((be32 c ++ [f]) ++ be24 (d.length + 8)) ++
        List.replicate (d.length + pad4 d.length) 0) d 8
      = (((be32 c ++ [f]) ++ be24 (d.length + 8)) ++ d) ++
          List.replicate (pad4 d.length) 0 := by
    have h := copyAt_fill2 ((be32 c ++ [f]) ++ be24 (d.length + 8)) d
      (d.length + pad4 d.length) 8 (pad4 d.length)
      (by simp [be32, be24]) (by omega) (by omega)
    rw [h, List.append_assoc]
  rw [e4]
  try simp [List.append_assoc]

theorem readA_step_vendor (c f v : Nat) (d done rest : List Nat) (fuel : Nat)
    (hc : c < 2 ^ 32) (hv : v ≠ 0) (hv32 : v < 2 ^ 32)
    (hbit : f &&& 128 ≠ 0) (hd : d.length + 13 ≤ 2 ^ 24) :
    readAvpsAuxA (done ++ ((NewAvpA c f v (some d)).ToBytes ++ rest))
        done.length (fuel + 1)
      = (readAvpsAuxA (done ++ ((NewAvpA c f v (some d)).ToBytes ++ rest))
          (done.length + (d.length + 12 + pad4 d.length)) fuel).map
          (fun l => NewAvpA c f v (some d) :: l) := by
  have henc := toBytesA_vendor c f v d hv (by omega)
  have hP : pad4 d.length ≤ 3 := by unfold pad4; split <;> omega
  set bytes := done ++ ((NewAvpA c f v (some d)).ToBytes ++ rest) with hbytes
  have hshape : bytes = done ++ (be32 c ++ ([f] ++ (be24 (d.length + 12) ++
      (be32 v ++ (d ++ (List.replicate (pad4 d.length) 0 ++ rest)))))) := by
    rw [hbytes, henc]
    simp [List.append_assoc]
  have hlen_bytes : done.length < bytes.length := by
    rw [hshape]
    simp only [be32, be24, List.length_append, List.length_cons,
      List.length_replicate, List.length_nil]
    omega
  have hnot : ¬ bytes.length ≤ done.length := by omega
  have hs1 : goSlice bytes done.length (done.length + 4) = some (be32 c) := by
    refine goSlice_eval bytes done (be32 c) _ _ _ hshape rfl (by simp [be32])
  have hg1 : bytes.get? (done.length + 4) = some f := by
    refine getq_eval bytes (done ++ be32 c) f
      (be24 (d.length + 12) ++ (be32 v ++ (d ++ (List.replicate (pad4 d.length) 0 ++ rest)))) _
      (by rw [hshape]; simp) (by simp [be32])
  have hs2 : goSlice bytes (done.length + 5) (done.length + 8)
      = some (be24 (d.length + 12)) := by
    refine goSlice_eval bytes (done ++ be32 c ++ [f]) (be24 (d.length + 12))
      (be32 v ++ (d ++ (List.replicate (pad4 d.length) 0 ++ rest))) _ _
      (by rw [hshape]; simp) (by simp [be32]) (by simp [be32, be24])
  have hs3 : goSlice bytes (done.length + 8) (done.length + 12) = some (be32 v) := by
    refine goSlice_eval bytes (done ++ be32 c ++ [f] ++ be24 (d.length + 12))
      (be32 v) (d ++ (List.replicate (pad4 d.length) 0 ++ rest)) _ _
      (by rw [hshape]; simp) (by simp [be32, be24])
      (by simp [be32, be24])
  have hs4 : goSlice bytes (done.length + 12) (done.length + (d.length + 12))
      = some d := by
    refine goSlice_eval bytes
      (done ++ be32 c ++ [f] ++ be24 (d.length + 12) ++ be32 v) d
      (List.replicate (pad4 d.length) 0 ++ rest) _ _
      (by rw [hshape]; simp) (by simp [be32, be24]) (by simp [be32, be24]; omega)
  have hpad : (NewAvpA c f v (some d)).padding = pad4 d.length := rfl
  rw [readAvpsAuxA, if_neg hnot]
  simp only [hs1]
  simp only [hg1]
  simp only [hs2]
  rw [readUInt24_be24 (d.length + 12) (by omega), if_pos hbit]
  simp only [hs3, hs4]
  rw [be32val_be32 c hc, be32val_be32 v hv32, hpad]
  rw [show done.length + (d.length + 12) + pad4 d.length
      = done.length + (d.length + 12 + pad4 d.length) from by omega]
  cases hrec : readAvpsAuxA bytes (done.length + (d.length + 12 + pad4 d.length)) fuel <;>
    simp [hrec]

theorem readA_step_novendor (c f : Nat) (d done rest : List Nat) (fuel : Nat)
    (hc : c < 2 ^ 32) (hbit : f &&& 128 = 0) (hd : d.length + 13 ≤ 2 ^ 24) :
    readAvpsAuxA (done ++ ((NewAvpA c f 0 (some d)).ToBytes ++ rest))
        done.length (fuel + 1)
      = (readAvpsAuxA (done ++ ((NewAvpA c f 0 (some d)).ToBytes ++ rest))
          (done.length + (d.length + 8 + pad4 d.length)) fuel).map
          (fun l => NewAvpA c f 0 (some d) :: l) := by
  have henc := toBytesA_novendor c f d (by omega)
  have hP : pad4 d.length ≤ 3 := by unfold pad4; split <;> omega
  set bytes := done ++ ((NewAvpA c f 0 (some d)).ToBytes ++ rest) with hbytes
  have hshape : bytes = done ++ (be32 c ++ ([f] ++ (be24 (d.length + 8) ++
      (d ++ (List.replicate (pad4 d.length) 0 ++ rest))))) := by
    rw [hbytes, henc]
    simp [List.append_assoc]
  have hlen_bytes : done.length < bytes.length := by
    rw [hshape]
    simp only [be32, be24, List.length_append, List.length_cons,
      List.length_replicate, List.length_nil]
    omega
  have hnot : ¬ bytes.length ≤ done.length := by omega
  have hs1 : goSlice bytes done.length (done.length + 4) = some (be32 c) := by
    refine goSlice_eval bytes done (be32 c)
      ([f] ++ (be24 (d.length + 8) ++ (d ++ (List.replicate (pad4 d.length) 0 ++ rest))))
      _ _ hshape rfl (by simp [be32])
  have hg1 : bytes.get? (done.length + 4) = some f := by
    refine getq_eval bytes (done ++ be32 c) f
      (be24 (d.length + 8) ++ (d ++ (List.replicate (pad4 d.length) 0 ++ rest))) _
      (by rw [hshape]; simp) (by simp [be32])
  have hs2 : goSlice bytes (done.length + 5) (done.length + 8)
      = some (be24 (d.length + 8)) := by
    refine goSlice_eval bytes (done ++ be32 c ++ [f]) (be24 (d.length + 8))
      (d ++ (List.replicate (pad4 d.length) 0 ++ rest)) _ _
      (by rw [hshape]; simp) (by simp [be32]) (by simp [be32, be24])
  have hs3 : goSlice bytes (done.length + 8) (done.length + (d.length + 8))
      = some d := by
    refine goSlice_eval bytes (done ++ be32 c ++ [f] ++ be24 (d.length + 8)) d
      (List.replicate (pad4 d.length) 0 ++ rest) _ _
      (by rw [hshape]; simp) (by simp [be32, be24]) (by simp [be32, be24]; omega)
  have hpad : (NewAvpA c f 0 (some d)).padding = pad4 d.length := rfl
  have hbit2 : ¬ f &&& 128 ≠ 0 := by simp [hbit]
  rw [readAvpsAuxA, if_neg hnot]
  simp only [hs1]
  simp only [hg1]
  simp only [hs2]
  rw [readUInt24_be24 (d.length + 8) (by omega), if_neg hbit2]
  simp only [hs3]
  rw [be32val_be32 c hc, hpad]
  rw [show done.length + (d.length + 8) + pad4 d.length
      = done.length + (d.length + 8 + pad4 d.length) from by omega]
  cases hrec : readAvpsAuxA bytes (done.length + (d.length + 8 + pad4 d.length)) fuel <;>
    simp [hrec]

theorem toBytesA_length2 (c f v : Nat) (d : List Nat)
    (hdlen : d.length + 16 ≤ 2 ^ 32) :
    (NewAvpA c f v (some d)).ToBytes.length
      = d.length + 8 + (if v ≠ 0 then 4 else 0) + pad4 d.length := by
  by_cases hv : v = 0
  · subst hv
    rw [toBytesA_novendor c f d (by omega)]
    simp [be32, be24]
    omega
  · rw [toBytesA_vendor c f v d hv (by omega)]
    simp [be32, be24, hv]
    omega

theorem readA_list (l : List AvpA) :
    ∀ (done : List Nat) (fuel : Nat), (∀ a ∈ l, wfAvpA a) → l.length ≤ fuel →
      readAvpsAuxA (done ++ avpsToBytesA l) done.length fuel = some l := by
  induction l with
  | nil =>
    intro done fuel _ _
    rw [readAvpsAuxA.eq_def]
    simp [avpsToBytesA]
  | cons a l ih =>
    intro done fuel hwf hfuel
    obtain ⟨fuel, rfl⟩ : ∃ fuel2, fuel = fuel2 + 1 := by
      cases fuel with
      | zero => simp at hfuel
      | succ n => exact ⟨n, rfl⟩
    have ha := hwf a (by simp)
    obtain ⟨haeq, hc, hf, hv32, hiff, hdn, hdlen⟩ := ha
    obtain ⟨d, hd⟩ := Option.ne_none_iff_exists'.mp hdn
    have hdlen2 : d.length + 13 ≤ 2 ^ 24 := by rw [hd] at hdlen; simpa using hdlen
    have hbytes : done ++ avpsToBytesA (a :: l)
        = done ++ (a.ToBytes ++ avpsToBytesA l) := by
      rw [avpsToBytesA]
    rw [hbytes]
    by_cases hv : a.VendorId = 0
    · have hbit : a.Flags &&& 128 = 0 := by
        by_contra hne
        exact (hiff.mpr hne) hv
      have haeq2 : a = NewAvpA a.Code a.Flags 0 (some d) := by
        conv_lhs => rw [haeq]
        rw [hv, hd]
      rw [haeq2]
      rw [readA_step_novendor a.Code a.Flags d done (avpsToBytesA l) fuel hc hbit hdlen2]
      have hoff : done.length + (d.length + 8 + pad4 d.length)
          = (done ++ (NewAvpA a.Code a.Flags 0 (some d)).ToBytes).length := by
        rw [List.length_append, toBytesA_length2 a.Code a.Flags 0 d (by omega)]
        simp <;> omega
      rw [hoff, ← List.append_assoc]
      rw [ih (done ++ (NewAvpA a.Code a.Flags 0 (some d)).ToBytes) fuel
        (fun x hx => hwf x (List.mem_cons_of_mem a hx)) (by simpa using hfuel)]
      rfl
    · have hbit : a.Flags &&& 128 ≠ 0 := hiff.mp hv
      have haeq2 : a = NewAvpA a.Code a.Flags a.VendorId (some d) := by
        conv_lhs => rw [haeq]
        rw [hd]
      rw [haeq2]
      rw [readA_step_vendor a.Code a.Flags a.VendorId d done (avpsToBytesA l) fuel
        hc hv hv32 hbit hdlen2]
      have hoff : done.length + (d.length + 12 + pad4 d.length)
          = (done ++ (NewAvpA a.Code a.Flags a.VendorId (some d)).ToBytes).length := by
        rw [List.length_append, toBytesA_length2 a.Code a.Flags a.VendorId d (by omega)]
        simp [hv] <;> omega
      rw [hoff, ← List.append_assoc]
      rw [ih (done ++ (NewAvpA a.Code a.Flags a.VendorId (some d)).ToBytes) fuel
        (fun x hx => hwf x (List.mem_cons_of_mem a hx)) (by simpa using hfuel)]
      rfl

theorem readAvpsA_roundtrip (l : List AvpA) (hwf : ∀ a ∈ l, wfAvpA a) :
    readAvpsA (avpsToBytesA l) = some l := by
  have hlen : l.length ≤ (avpsToBytesA l).length := by
    induction l with
    | nil => simp [avpsToBytesA]
    | cons a l ih =>
      rw [avpsToBytesA]
      obtain ⟨haeq, hc, hf, hv32, hiff, hdn, hdlen⟩ := hwf a (by simp)
      obtain ⟨d, hd⟩ := Option.ne_none_iff_exists'.mp hdn
      have hdlen2 : d.length + 13 ≤ 2 ^ 24 := by rw [hd] at hdlen; simpa using hdlen
      have h8 : 8 ≤ a.ToBytes.length := by
        conv_rhs => rw [haeq, hd]
        rw [toBytesA_length2 a.Code a.Flags a.VendorId d (by omega)]
        omega
      have := ih (fun x hx => hwf x (List.mem_cons_of_mem a hx))
      simp only [List.length_append, List.length_cons]
      omega
  have h := readA_list l [] (avpsToBytesA l).length hwf hlen
  simpa [readAvpsA] using h

theorem toBytesB_vendor (t v : Nat) (d : List Nat) (hv : v ≠ 0)
    (hd : d.length ≤ 247) :
    (RNewAvp t v (some d)).toBytes
      = 26 :: ((d.length + 8) :: (be32 v ++ (t :: ((d.length + 2) :: d)))) := by
  unfold RNewAvp RAvp.toBytes
  simp only [Option.getD_some, if_neg hv]
  simp [if_neg hv, Nat.mod_eq_of_lt (show d.length + 8 < 256 by omega),
    Nat.mod_eq_of_lt (show d.length + 2 < 256 by omega)]

theorem toBytesB_novendor (t : Nat) (d : List Nat) (hd : d.length ≤ 253) :
    (RNewAvp t 0 (some d)).toBytes = t :: ((d.length + 2) :: d) := by
  unfold RNewAvp RAvp.toBytes
  simp [Nat.mod_eq_of_lt (show d.length + 2 < 256 by omega)]

theorem readB_step_vendor (t v : Nat) (d done rest : List Nat) (fuel : Nat)
    (hv : v ≠ 0) (hv32 : v < 2 ^ 32) (hd : d.length ≤ 247) :
    readAvpsAuxB (done ++ ((RNewAvp t v (some d)).toBytes ++ rest))
        done.length (fuel + 1)
      = (readAvpsAuxB (done ++ ((RNewAvp t v (some d)).toBytes ++ rest))
          (done.length + (d.length + 8)) fuel).map
          (fun l => RNewAvp t v (some d) :: l) := by
  have henc := toBytesB_vendor t v d hv hd
  set bytes := done ++ ((RNewAvp t v (some d)).toBytes ++ rest) with hbytes
  have hshape : bytes = done ++ (26 :: ((d.length + 8) ::
      (be32 v ++ (t :: ((d.length + 2) :: (d ++ rest)))))) := by
    rw [hbytes, henc]
    simp [List.append_assoc]
  have hlen_bytes : done.length < bytes.length := by
    rw [hshape]
    simp only [be32, List.length_append, List.length_cons, List.length_nil]
    omega
  have hnot : ¬ bytes.length ≤ done.length := by omega
  have hg0 : bytes.get? done.length = some 26 := by
    refine getq_eval bytes done 26
      ((d.length + 8) :: (be32 v ++ (t :: ((d.length + 2) :: (d ++ rest))))) _
      hshape rfl
  have hg1 : bytes.get? (done.length + 1) = some (d.length + 8) := by
    refine getq_eval bytes (done ++ [26]) (d.length + 8)
      (be32 v ++ (t :: ((d.length + 2) :: (d ++ rest)))) _
      (by rw [hshape]; simp) (by simp)
  have hs2 : goSlice bytes (done.length + 2) (done.length + 6) = some (be32 v) := by
    refine goSlice_eval bytes (done ++ [26, d.length + 8]) (be32 v)
      (t :: ((d.length + 2) :: (d ++ rest))) _ _
      (by rw [hshape]; simp) (by simp) (by simp [be32])
  have hg3 : bytes.get? (done.length + 6) = some t := by
    refine getq_eval bytes (done ++ [26, d.length + 8] ++ be32 v) t
      ((d.length + 2) :: (d ++ rest)) _
      (by rw [hshape]; simp) (by simp [be32])
  have hg4 : bytes.get? (done.length + 7) = some (d.length + 2) := by
    refine getq_eval bytes (done ++ [26, d.length + 8] ++ be32 v ++ [t])
      (d.length + 2) (d ++ rest) _
      (by rw [hshape]; simp) (by simp [be32])
  have hs5 : goSlice bytes (done.length + 8) (done.length + 6 + (d.length + 2))
      = some d := by
    refine goSlice_eval bytes
      (done ++ [26, d.length + 8] ++ be32 v ++ [t, d.length + 2]) d rest _ _
      (by rw [hshape]; simp) (by simp [be32]) (by simp [be32]; omega)
  rw [readAvpsAuxB, if_neg hnot]
  simp only [hg0, hg1]
  simp only [if_true]
  simp only [hs2, hg3, hg4, hs5]
  rw [be32val_be32 v hv32]
  rw [show done.length + (d.length + 8) = done.length + (d.length + 8) from rfl]
  cases hrec : readAvpsAuxB bytes (done.length + (d.length + 8)) fuel <;>
    simp [hrec]

theorem readB_step_novendor (t : Nat) (d done rest : List Nat) (fuel : Nat)
    (ht : t ≠ 26) (hd : d.length ≤ 253) :
    readAvpsAuxB (done ++ ((RNewAvp t 0 (some d)).toBytes ++ rest))
        done.length (fuel + 1)
      = (readAvpsAuxB (done ++ ((RNewAvp t 0 (some d)).toBytes ++ rest))
          (done.length + (d.length + 2)) fuel).map
          (fun l => RNewAvp t 0 (some d) :: l) := by
  have henc := toBytesB_novendor t d hd
  set bytes := done ++ ((RNewAvp t 0 (some d)).toBytes ++ rest) with hbytes
  have hshape : bytes = done ++ (t :: ((d.length + 2) :: (d ++ rest))) := by
    rw [hbytes, henc]
    simp [List.append_assoc]
  have hlen_bytes : done.length < bytes.length := by
    rw [hshape]
    simp only [List.length_append, List.length_cons]
    omega
  have hnot : ¬ bytes.length ≤ done.length := by omega
  have hg0 : bytes.get? done.length = some t := by
    refine getq_eval bytes done t ((d.length + 2) :: (d ++ rest)) _ hshape rfl
  have hg1 : bytes.get? (done.length + 1) = some (d.length + 2) := by
    refine getq_eval bytes (done ++ [t]) (d.length + 2) (d ++ rest) _
      (by rw [hshape]; simp) (by simp)
  have hs2 : goSlice bytes (done.length + 2) (done.length + (d.length + 2))
      = some d := by
    refine goSlice_eval bytes (done ++ [t, d.length + 2]) d rest _ _
      (by rw [hshape]; simp) (by simp) (by simp; omega)
  rw [readAvpsAuxB, if_neg hnot]
  simp only [hg0, hg1]
  rw [if_neg ht]
  simp only [hs2]
  cases hrec : readAvpsAuxB bytes (done.length + (d.length + 2)) fuel <;>
    simp [hrec]

theorem toBytesB_length (t v : Nat) (d : List Nat) :
    (RNewAvp t v (some d)).toBytes.length
      = d.length + 2 + (if v ≠ 0 then 6 else 0) := by
  unfold RNewAvp RAvp.toBytes
  by_cases hv : v = 0 <;> simp [hv, be32]<;> omega

theorem readB_list (l : List RAvp) :
    ∀ (done : List Nat) (fuel : Nat), (∀ a ∈ l, wfAvpB a) → l.length ≤ fuel →
      readAvpsAuxB (done ++ avpsToBytesB l) done.length fuel = some l := by
  induction l with
  | nil =>
    intro done fuel _ _
    rw [readAvpsAuxB.eq_def]
    simp [avpsToBytesB]
  | cons a l ih =>
    intro done fuel hwf hfuel
    obtain ⟨fuel, rfl⟩ : ∃ fuel2, fuel = fuel2 + 1 := by
      cases fuel with
      | zero => simp at hfuel
      | succ n => exact ⟨n, rfl⟩
    obtain ⟨haeq, ht, hv32, hdn, hbound⟩ := hwf a (by simp)
    obtain ⟨d, hd⟩ := Option.ne_none_iff_exists'.mp hdn
    have hbytes : done ++ avpsToBytesB (a :: l)
        = done ++ (a.toBytes ++ avpsToBytesB l) := by
      rw [avpsToBytesB]
    rw [hbytes]
    by_cases hv : a.VendorId = 0
    · rw [hv] at hbound
      simp only [if_pos rfl] at hbound
      obtain ⟨ht26, hdlen⟩ := hbound
      rw [hd] at hdlen
      simp only [Option.getD_some] at hdlen
      have haeq2 : a = RNewAvp a.typ 0 (some d) := by
        conv_lhs => rw [haeq]
        rw [hv, hd]
      rw [haeq2]
      rw [readB_step_novendor a.typ d done (avpsToBytesB l) fuel ht26 hdlen]
      have hoff : done.length + (d.length + 2)
          = (done ++ (RNewAvp a.typ 0 (some d)).toBytes).length := by
        rw [List.length_append, toBytesB_length a.typ 0 d]
        simp <;> omega
      rw [hoff, ← List.append_assoc]
      rw [ih (done ++ (RNewAvp a.typ 0 (some d)).toBytes) fuel
        (fun x hx => hwf x (List.mem_cons_of_mem a hx)) (by simpa using hfuel)]
      rfl
    · rw [if_neg hv] at hbound
      rw [hd] at hbound
      simp only [Option.getD_some] at hbound
      have haeq2 : a = RNewAvp a.typ a.VendorId (some d) := by
        conv_lhs => rw [haeq]
        rw [hd]
      rw [haeq2]
      rw [readB_step_vendor a.typ a.VendorId d done (avpsToBytesB l) fuel
        hv hv32 hbound]
      have hoff : done.length + (d.length + 8)
          = (done ++ (RNewAvp a.typ a.VendorId (some d)).toBytes).length := by
        rw [List.length_append, toBytesB_length a.typ a.VendorId d]
        simp [hv] <;> omega
      rw [hoff, ← List.append_assoc]
      rw [ih (done ++ (RNewAvp a.typ a.VendorId (some d)).toBytes) fuel
        (fun x hx => hwf x (List.mem_cons_of_mem a hx)) (by simpa using hfuel)]
      rfl

theorem readAvpsB_roundtrip (l : List RAvp) (hwf : ∀ a ∈ l, wfAvpB a) :
    readAvpsB (avpsToBytesB l) = some l := by
  have hlen : l.length ≤ (avpsToBytesB l).length := by
    induction l with
    | nil => simp [avpsToBytesB]
    | cons a l ih =>
      rw [avpsToBytesB]
      obtain ⟨haeq, ht, hv32, hdn, hbound⟩ := hwf a (by simp)
      obtain ⟨d, hd⟩ := Option.ne_none_iff_exists'.mp hdn
      have h2 : 2 ≤ a.toBytes.length := by
        conv_rhs => rw [haeq, hd]
        rw [toBytesB_length a.typ a.VendorId d]
        omega
      have := ih (fun x hx => hwf x (List.mem_cons_of_mem a hx))
      simp only [List.length_append, List.length_cons]
      omega
  have h := readB_list l [] (avpsToBytesB l).length hwf hlen
  simpa [readAvpsB] using h

/-! ## Claim theorems -/

/-- Claim C1, counterexample: the claim fails as stated for Format A.  The
AVP with code 1, flags 0 and vendor id 1 encodes with the vendor id field
present, but since the encoder copies the flags byte verbatim and never
sets bit 0x80, the decoder does not recognise the vendor marker: the AVP
decodes back with vendor id 0, not 1. -/
theorem claim_C1_cex :
    (readAvpsA ((NewAvpA 1 0 1 (some [])).ToBytes)).map
        (fun l => l.map AvpA.VendorId) = some [0] ∧
      (readAvpsA ((NewAvpA 1 0 1 (some [])).ToBytes)).map
        (fun l => l.map AvpA.VendorId) ≠ some [1] := by
  decide

/-- Claim C1, amended: an AVP with a non-zero vendor id round-trips through
encode and decode with the same vendor id, and Format A ToBytes emits the
4-byte big-endian vendor id field at offsets 8..12 whenever the vendor id
is non-zero — provided that, for Format A, the flags byte has the vendor
marker bit 0x80 set (the encoder copies the flags byte verbatim and the
decoder keys on that bit), and that, for Format B, the payload is at most
247 bytes (so the one-byte length fields are exact); Format B sets its
vendor marker, the outer type byte 26, automatically. -/
theorem claim_C1 :
    (∀ c f v : Nat, ∀ d : List Nat, c < 2 ^ 32 → f < 256 → v ≠ 0 →
        v < 2 ^ 32 → f &&& 128 ≠ 0 → d.length + 13 ≤ 2 ^ 24 →
        goSlice (NewAvpA c f v (some d)).ToBytes 8 12 = some (be32 v) ∧
        readAvpsA ((NewAvpA c f v (some d)).ToBytes)
          = some [NewAvpA c f v (some d)] ∧
        (NewAvpA c f v (some d)).VendorId = v) ∧
    (∀ t v : Nat, ∀ d : List Nat, t < 256 → v ≠ 0 → v < 2 ^ 32 →
        d.length ≤ 247 →
        (RNewAvp t v (some d)).toBytes.get? 0 = some 26 ∧
        readAvpsB ((RNewAvp t v (some d)).toBytes)
          = some [RNewAvp t v (some d)] ∧
        (RNewAvp t v (some d)).VendorId = v) := by
  constructor
  · intro c f v d hc hf hv hv32 hbit hd
    refine ⟨?_, ?_, rfl⟩
    · rw [toBytesA_vendor c f v d hv (by omega)]
      refine goSlice_eval _ (be32 c ++ [f] ++ be24 (d.length + 12)) (be32 v)
        (d ++ List.replicate (pad4 d.length) 0) _ _
        (by simp [List.append_assoc]) (by simp [be32, be24])
        (by simp [be32, be24])
    · have h := readAvpsA_roundtrip [NewAvpA c f v (some d)]
        (by
          intro a ha
          simp at ha
          subst ha
          exact ⟨rfl, hc, hf, hv32, Iff.intro (fun _ => hbit) (fun _ => hv),
            by simp [NewAvpA], by simpa [NewAvpA] using hd⟩)
      simpa [avpsToBytesA] using h
  · intro t v d ht hv hv32 hd
    refine ⟨?_, ?_, ?_⟩
    · rw [toBytesB_vendor t v d hv hd]
      rfl
    · have h := readAvpsB_roundtrip [RNewAvp t v (some d)]
        (by
          intro a ha
          simp at ha
          subst ha
          refine ⟨by simp [RNewAvp, hv], by simpa [RNewAvp, hv] using ht,
            by simpa [RNewAvp, hv] using hv32, by simp [RNewAvp, hv], ?_⟩
          simp [RNewAvp, hv]
          exact hd)
      simpa [avpsToBytesB] using h
    · simp [RNewAvp, hv]

/-- Claim C1, witness: the amended round-trip at the concrete vendor AVP of
the test suite (code 869, flags 0xc0, vendor 10415) and a concrete Format B
vendor AVP. -/
theorem claim_C1_witness :
    readAvpsA ((NewAvpA 869 192 10415 (some [4, 247, 60, 102])).ToBytes)
      = some [NewAvpA 869 192 10415 (some [4, 247, 60, 102])] ∧
    readAvpsB ((RNewAvp 1 10415 (some [9, 9])).toBytes)
      = some [RNewAvp 1 10415 (some [9, 9])] := by
  exact ⟨(claim_C1.1 869 192 10415 [4, 247, 60, 102] (by decide) (by decide)
      (by decide) (by decide) (by decide) (by decide)).2.1,
    (claim_C1.2 1 10415 [9, 9] (by decide) (by decide) (by decide)
      (by decide)).2.1⟩

/-- Claim C2, counterexample: a collection built with the typed uint32
constructor (code 5, flags 0, vendor 1, value 7) does not decode back to
the same (code, vendor, payload) tuples — the encoder emits the vendor id
field but, with the vendor flag bit unset, the decoder treats those four
bytes as payload, yielding vendor 0 and a different payload. -/
theorem claim_C2_cex :
    (readAvpsA (avpsToBytesA (buildAList [AvpSpecA.u32 5 0 1 7]))).map
        (fun l => l.map tupleA)
      ≠ some ((buildAList [AvpSpecA.u32 5 0 1 7]).map tupleA) := by
  decide

/-- Claim C2, amended: for every AVP collection built via the typed
constructors, decoding the encoding yields the same (code, vendor, payload)
tuples in the same order, provided every constructed AVP is
decode-faithful: code, flags and vendor id within their Go types, Format A
flags bit 0x80 set exactly when the vendor id is non-zero, payload small
enough for the length field (Format A: 24-bit length; Format B: 253 bytes,
or 247 with a vendor id), and Format B vendorless AVPs not using attribute
type 26 (the vendor marker). -/
theorem claim_C2 :
    (∀ specs : List AvpSpecA, (∀ a ∈ buildAList specs, wfAvpA a) →
        (readAvpsA (avpsToBytesA (buildAList specs))).map
            (fun l => l.map tupleA)
          = some ((buildAList specs).map tupleA)) ∧
    (∀ specs : List AvpSpecB, (∀ a ∈ buildBList specs, wfAvpB a) →
        (readAvpsB (avpsToBytesB (buildBList specs))).map
            (fun l => l.map tupleB)
          = some ((buildBList specs).map tupleB)) := by
  constructor
  · intro specs h
    rw [readAvpsA_roundtrip _ h]
    rfl
  · intro specs h
    rw [readAvpsB_roundtrip _ h]
    rfl

/-- Claim C2, witness: the amended round-trip at a concrete two-element
Format A collection (uint32 and string constructors) and a concrete
Format B collection. -/
theorem claim_C2_witness :
    (readAvpsA (avpsToBytesA (buildAList
        [AvpSpecA.u32 258 64 0 1, AvpSpecA.str 263 192 10415 [104, 105]]))).map
        (fun l => l.map tupleA)
      = some ((buildAList
          [AvpSpecA.u32 258 64 0 1,
            AvpSpecA.str 263 192 10415 [104, 105]]).map tupleA) ∧
    (readAvpsB (avpsToBytesB (buildBList
        [AvpSpecB.str 1 0 [104, 105], AvpSpecB.u32 5 10415 7]))).map
        (fun l => l.map tupleB)
      = some ((buildBList
          [AvpSpecB.str 1 0 [104, 105], AvpSpecB.u32 5 10415 7]).map tupleB) := by
  exact ⟨claim_C2.1 [AvpSpecA.u32 258 64 0 1, AvpSpecA.str 263 192 10415 [104, 105]]
      (by decide),
    claim_C2.2 [AvpSpecB.str 1 0 [104, 105], AvpSpecB.u32 5 10415 7] (by decide)⟩

/-- Claim C3, counterexample: ToUint32 applied to an AVP whose payload is a
zero-length but non-nil byte slice does not return an absent result — the
nil check passes and `binary.BigEndian.Uint32` panics on the bounds check,
modelled as `GoVal.crash`. -/
theorem claim_C3_cex :
    AvpAToUint32 (some (NewAvpA 1 0 0 (some []))) = GoVal.crash ∧
    AvpAToUint32 (some (NewAvpA 1 0 0 (some []))) ≠ GoVal.ret none := by
  decide

/-- Claim C3, amended: every typed accessor of either format returns an
absent result, without panicking, when the AVP reference is absent (nil)
or its payload is a nil slice (the accessors check only `Data == nil`);
an empty but non-nil payload is not covered — it panics the fixed-width
accessors, as the counterexample shows. -/
theorem claim_C3 :
    (∀ a : Option AvpA, (a = none ∨ ∃ x, a = some x ∧ x.Data = none) →
        AvpAToString a = .ret none ∧ AvpAToUint32 a = .ret none ∧
        AvpAToUint64 a = .ret none ∧ AvpAToFloat32 a = .ret none ∧
        AvpAToFloat64 a = .ret none ∧ AvpAToNetIP a = .ret none ∧
        AvpAToTime a = .ret none ∧ AvpAToGroup a = .ret []) ∧
    (∀ b : Option RAvp, (b = none ∨ ∃ x, b = some x ∧ x.Data = none) →
        RAvpToString b = .ret none ∧ RAvpToUint32 b = .ret none ∧
        RAvpToNetIP b = .ret none ∧ RAvpToTime b = .ret none) := by
  constructor
  · rintro a (rfl | ⟨x, rfl, hx⟩)
    · exact ⟨rfl, rfl, rfl, rfl, rfl, rfl, rfl, rfl⟩
    · exact ⟨by simp [AvpAToString, hx], by simp [AvpAToUint32, hx],
        by simp [AvpAToUint64, hx], by simp [AvpAToFloat32, hx],
        by simp [AvpAToFloat64, hx], by simp [AvpAToNetIP, hx],
        by simp [AvpAToTime, hx], by simp [AvpAToGroup, hx]⟩
  · rintro b (rfl | ⟨x, rfl, hx⟩)
    · exact ⟨rfl, rfl, rfl, rfl⟩
    · exact ⟨by simp [RAvpToString, hx], by simp [RAvpToUint32, hx],
        by simp [RAvpToNetIP, hx], by simp [RAvpToTime, hx]⟩

/-- Claim C3, witness: the amended accessor behaviour at the absent (nil)
AVP reference of each format. -/
theorem claim_C3_witness :
    (AvpAToString none = .ret none ∧ AvpAToUint32 none = .ret none ∧
      AvpAToUint64 none = .ret none ∧ AvpAToFloat32 none = .ret none ∧
      AvpAToFloat64 none = .ret none ∧ AvpAToNetIP none = .ret none ∧
      AvpAToTime none = .ret none ∧ AvpAToGroup none = .ret []) ∧
    (RAvpToString none = .ret none ∧ RAvpToUint32 none = .ret none ∧
      RAvpToNetIP none = .ret none ∧ RAvpToTime none = .ret none) := by
  exact ⟨claim_C3.1 none (Or.inl rfl), claim_C3.2 none (Or.inl rfl)⟩

/-- Claim C4: Format A NewAvpTime does not add the NTP epoch offset — for a
time with Unix seconds 1000000000 the stored payload is the big-endian
encoding of 1000000000 itself, not of 1000000000 + 2208988800 as the claim
requires; the Format B constructor stores raw Unix seconds as claimed.
Since the Format A ToTime decoder subtracts 2208988800, encode followed by
decode shifts every timestamp by 70 years, so the code contradicts the
evident intent of its own decoder. -/
theorem claim_C4 :
    (NewAvpTimeA 55 0 0 1000000000).Data = some (be32 1000000000) ∧
    (RNewAvpTime 55 0 1000000000).Data = some (be32 1000000000) ∧
    be32 1000000000 ≠ be32 ((1000000000 + 2208988800) % 2 ^ 32) := by
  decide

/-- Claim C5: on a 4-byte payload, the Format A ToTime accessor interprets
the payload as a big-endian 32-bit value and subtracts exactly 2208988800
seconds before treating the result as Unix time, while the Format B ToTime
applies no offset. -/
theorem claim_C5 :
    ∀ (c f v t2 v2 : Nat) (d : List Nat), d.length = 4 →
      AvpAToTime (some (NewAvpA c f v (some d)))
        = .ret (some ((be32val d : Int) - 2208988800)) ∧
      RAvpToTime (some (RNewAvp t2 v2 (some d)))
        = .ret (some (be32val d : Int)) := by
  intro c f v t2 v2 d h
  constructor
  · simp [AvpAToTime, NewAvpA, h]
  · by_cases hv : v2 = 0 <;> simp [RAvpToTime, RNewAvp, hv, h]

/-- Claim C5, witness: on the all-zero 4-byte payload, Format A ToTime
yields Unix second -2208988800 (the NTP epoch, 1900-01-01) and Format B
ToTime yields Unix second 0. -/
theorem claim_C5_witness :
    AvpAToTime (some (NewAvpA 55 0 0 (some [0, 0, 0, 0])))
      = .ret (some ((be32val [0, 0, 0, 0] : Int) - 2208988800)) ∧
    RAvpToTime (some (RNewAvp 55 0 (some [0, 0, 0, 0])))
      = .ret (some (be32val [0, 0, 0, 0] : Int)) := by
  exact claim_C5 55 0 0 55 0 [0, 0, 0, 0] rfl

/-- Claim C6: GetFirst on an empty collection returns an absent result for
every (code, vendor) key in both formats; every typed accessor and ToGroup
applied to the absent result yields an absent or default value without an
error; ToGroup on an absent AVP or on an AVP with an empty payload yields
an empty collection; and the chain
`emptyCollection.GetFirst(1,0).ToGroup().GetFirst(1,0).ToString()`
evaluates to an absent result. -/
theorem claim_C6 :
    (∀ c v : Nat, GetFirstA [] c v = none) ∧
    (∀ c v : Nat, GetFirstB [] c v = none) ∧
    AvpAToString none = .ret none ∧ AvpAToUint32 none = .ret none ∧
    AvpAToUint64 none = .ret none ∧ AvpAToFloat32 none = .ret none ∧
    AvpAToFloat64 none = .ret none ∧ AvpAToNetIP none = .ret none ∧
    AvpAToTime none = .ret none ∧ AvpAToGroup none = .ret [] ∧
    (∀ c f v : Nat, AvpAToGroup (some (NewAvpA c f v (some []))) = .ret []) ∧
    GoVal.andThen (AvpAToGroup (GetFirstA [] 1 0))
        (fun g => AvpAToString (GetFirstA g 1 0)) = .ret none := by
  exact ⟨fun c v => rfl, fun c v => rfl, rfl, rfl, rfl, rfl, rfl, rfl, rfl,
    rfl, fun c f v => rfl, rfl⟩

/-- Claim C7: in both formats ReadMessage fails on every input shorter than
20 bytes (Format A with an "invalid message length" error, Format B with a
nil message); on an input of at least 20 bytes whose AVP region decodes,
the returned message carries the header fields sliced at the fixed offsets
of its format and the AVP collection decoded from the bytes at offset 20
onward. -/
theorem claim_C7 :
    (∀ bytes : List Nat, bytes.length < 20 →
        ReadMessageA bytes = .ret (.error "invalid message length") ∧
        ReadMessageB bytes = .ret none) ∧
    (∀ (bytes : List Nat) (avps : List AvpA), 20 ≤ bytes.length →
        readAvpsA (bytes.drop 20) = some avps →
        ReadMessageA bytes = .ret (.ok ⟨bytes.getD 0 0, bytes.getD 4 0,
          readUInt24 ((bytes.drop 5).take 3), be32val ((bytes.drop 8).take 4),
          (bytes.drop 12).take 4, (bytes.drop 16).take 4, avps⟩)) ∧
    (∀ (bytes : List Nat) (avps : List RAvp), 20 ≤ bytes.length →
        readAvpsB (bytes.drop 20) = some avps →
        ReadMessageB bytes = .ret (some ⟨bytes.getD 0 0, bytes.getD 1 0,
          (bytes.drop 4).take 16, avps⟩)) := by
  refine ⟨fun bytes h => ⟨?_, ?_⟩, fun bytes avps h havps => ?_,
    fun bytes avps h havps => ?_⟩
  · rw [ReadMessageA, if_pos h]
  · rw [ReadMessageB, if_pos h]
  · rw [ReadMessageA, if_neg (by omega), havps]
  · rw [ReadMessageB, if_neg (by omega), havps]

/-- Claim C7, witness: the empty input is rejected by both formats, and the
all-zero 20-byte input parses into the all-zero header with an empty AVP
collection. -/
theorem claim_C7_witness :
    (ReadMessageA [] = .ret (.error "invalid message length") ∧
      ReadMessageB [] = .ret none) ∧
    ReadMessageA (List.replicate 20 0)
      = .ret (.ok ⟨0, 0, 0, 0, [0, 0, 0, 0], [0, 0, 0, 0], []⟩) ∧
    ReadMessageB (List.replicate 20 0)
      = .ret (some ⟨0, 0, List.replicate 16 0, []⟩) := by
  refine ⟨claim_C7.1 [] (by decide), ?_, ?_⟩
  · have h := claim_C7.2.1 (List.replicate 20 0) [] (by decide) (by decide)
    simpa using h
  · have h := claim_C7.2.2 (List.replicate 20 0) [] (by decide) (by decide)
    simpa using h

/-- Claim C8: for Format A, the encoding of every constructible AVP (any
payload length representable in the uint32 length arithmetic, with or
without a vendor id) has a total size that is a multiple of 4, equal to the
length field (payload length plus 8, or plus 12 with a vendor id) plus the
padding count, and ends in that many zero padding bytes; payloads of
length at most 4 (hence 0, 1, 2, 3 and 4) produce decodable, correctly
padded AVPs. -/
theorem claim_C8 :
    (∀ (c f v : Nat) (d : List Nat), d.length + 16 ≤ 2 ^ 32 →
        (NewAvpA c f v (some d)).ToBytes.length % 4 = 0 ∧
        (NewAvpA c f v (some d)).ToBytes.length
          = (NewAvpA c f v (some d)).length + pad4 d.length ∧
        (NewAvpA c f v (some d)).length
          = d.length + 8 + (if v ≠ 0 then 4 else 0) ∧
        pad4 d.length = (4 - d.length % 4) % 4 ∧
        (NewAvpA c f v (some d)).ToBytes.drop (NewAvpA c f v (some d)).length
          = List.replicate (pad4 d.length) 0) ∧
    (∀ (c f : Nat) (d : List Nat), c < 2 ^ 32 → f < 256 → f &&& 128 = 0 →
        d.length ≤ 4 →
        readAvpsA ((NewAvpA c f 0 (some d)).ToBytes)
          = some [NewAvpA c f 0 (some d)]) := by
  constructor
  · intro c f v d hd
    have hlen2 := toBytesA_length2 c f v d hd
    have hite : (if v ≠ 0 then 4 else 0) ≤ 4 := by split <;> omega
    have hlenfield : (NewAvpA c f v (some d)).length
        = d.length + 8 + (if v ≠ 0 then 4 else 0) := by
      show (d.length + 8 + (if v ≠ 0 then 4 else 0)) % 2 ^ 32 = _
      exact Nat.mod_eq_of_lt (by omega)
    refine ⟨?_, ?_, hlenfield, ?_, ?_⟩
    · rw [hlen2]
      unfold pad4
      split <;> split <;> omega
    · rw [hlen2, hlenfield]
    · unfold pad4
      split <;> omega
    · rw [hlenfield]
      by_cases hv : v = 0
      · subst hv
        rw [toBytesA_novendor c f d (by omega)]
        simp only [ne_eq, not_true_eq_false, if_false, Nat.add_zero]
        exact List.drop_left' (by simp [be32, be24] <;> omega)
      · rw [toBytesA_vendor c f v d hv (by omega)]
        simp only [ne_eq, hv, not_false_eq_true, if_true]
        exact List.drop_left' (by simp [be32, be24] <;> omega)
  · intro c f d hc hf hbit hd
    have h := readAvpsA_roundtrip [NewAvpA c f 0 (some d)]
      (by
        intro a ha
        simp at ha
        subst ha
        exact ⟨rfl, hc, hf, (by decide : (0 : Nat) < 2 ^ 32),
          Iff.intro (fun h => (h rfl).elim) (fun hh => (hh hbit).elim),
          by simp [NewAvpA], by simpa [NewAvpA] using (by omega : d.length + 13 ≤ 2 ^ 24)⟩)
    simpa [avpsToBytesA] using h

/-- Claim C8, witness: the size and padding facts at a 5-byte vendor
payload, and a decodable 3-byte vendorless AVP. -/
theorem claim_C8_witness :
    ((NewAvpA 1 128 9 (some [1, 2, 3, 4, 5])).ToBytes.length % 4 = 0 ∧
      (NewAvpA 1 128 9 (some [1, 2, 3, 4, 5])).ToBytes.length
        = (NewAvpA 1 128 9 (some [1, 2, 3, 4, 5])).length + pad4 5 ∧
      (NewAvpA 1 128 9 (some [1, 2, 3, 4, 5])).length
        = 5 + 8 + (if (9 : Nat) ≠ 0 then 4 else 0) ∧
      pad4 5 = (4 - 5 % 4) % 4 ∧
      (NewAvpA 1 128 9 (some [1, 2, 3, 4, 5])).ToBytes.drop
          (NewAvpA 1 128 9 (some [1, 2, 3, 4, 5])).length
        = List.replicate (pad4 5) 0) ∧
    readAvpsA ((NewAvpA 7 64 0 (some [1, 2, 3])).ToBytes)
      = some [NewAvpA 7 64 0 (some [1, 2, 3])] := by
  have h1 := claim_C8.1 1 128 9 [1, 2, 3, 4, 5] (by decide)
  have h2 := claim_C8.2 7 64 [1, 2, 3] (by decide) (by decide) (by decide)
    (by decide)
  exact ⟨by simpa using h1, h2⟩

/-- Claim C9: encoding the AVP with code 1, vendor 0, flags 0 and payload
00 00 00 01 yields, for Format A, exactly the 12 bytes
00 00 00 01 00 00 00 0c 00 00 00 01 (length field 0x0c), and, for
Format B with type 1 and vendor 0, exactly the 6 bytes 01 06 00 00 00 01
(length field 6). -/
theorem claim_C9 :
    (NewAvpA 1 0 0 (some [0, 0, 0, 1])).ToBytes
      = [0, 0, 0, 1, 0, 0, 0, 12, 0, 0, 0, 1] ∧
    (RNewAvp 1 0 (some [0, 0, 0, 1])).toBytes = [1, 6, 0, 0, 0, 1] := by
  decide

/-- Claim C10: the Format B constructor stores the one-byte length field as
(payload length + 2) mod 256 without a vendor id and (payload length + 8)
mod 256 with one, with no error reported (the constructor is total), so for
payloads longer than 253 bytes (respectively 247 with a vendor id) the
stored length field differs from the true encoded size. -/
theorem claim_C10 :
    ∀ (t v : Nat) (d : List Nat),
      (253 < d.length → v = 0 →
        (RNewAvp t v (some d)).length = (d.length + 2) % 256 ∧
        (RNewAvp t v (some d)).length ≠ (RNewAvp t v (some d)).toBytes.length) ∧
      (247 < d.length → v ≠ 0 →
        (RNewAvp t v (some d)).length = (d.length + 8) % 256 ∧
        (RNewAvp t v (some d)).length ≠ (RNewAvp t v (some d)).toBytes.length) := by
  intro t v d
  constructor
  · intro hlen hv
    subst hv
    refine ⟨by simp [RNewAvp], ?_⟩
    rw [toBytesB_length t 0 d]
    simp [RNewAvp]
    omega
  · intro hlen hv
    refine ⟨by simp [RNewAvp, hv], ?_⟩
    rw [toBytesB_length t v d]
    simp [RNewAvp, hv]
    omega

/-- Claim C10, witness: a 254-byte vendorless payload stores length byte
(254 + 2) mod 256 = 0, different from the true encoded size 256, and a
248-byte vendor payload stores length byte (248 + 8) mod 256 = 0,
different from the true encoded size 256. -/
theorem claim_C10_witness :
    (RNewAvp 1 0 (some (List.replicate 254 0))).length
        = ((List.replicate 254 0 : List Nat).length + 2) % 256 ∧
    (RNewAvp 1 0 (some (List.replicate 254 0))).length
        ≠ (RNewAvp 1 0 (some (List.replicate 254 0))).toBytes.length ∧
    (RNewAvp 3 9 (some (List.replicate 248 0))).length
        = ((List.replicate 248 0 : List Nat).length + 8) % 256 ∧
    (RNewAvp 3 9 (some (List.replicate 248 0))).length
        ≠ (RNewAvp 3 9 (some (List.replicate 248 0))).toBytes.length := by
  have h1 := (claim_C10 1 0 (List.replicate 254 0)).1
    (by rw [List.length_replicate]; omega) rfl
  have h2 := (claim_C10 3 9 (List.replicate 248 0)).2
    (by rw [List.length_replicate]; omega) (by decide)
  exact ⟨h1.1, h1.2, h2.1, h2.2⟩
